import Mathlib

/-!
Shallow embedding of the VIX/UPRO backtest script (`vix_11_23.py`).

A pandas column over the aligned date index is modelled as a `List` whose
positions stand for the (strictly increasing) dates; a pandas `NaN` entry is
`none`, so a column that may contain `NaN` is a `List (Option ℚ)` and a column
known to be `NaN`-free after `dropna()` is a `List ℚ`.  Floating-point values
are modelled as rationals.  NumPy/pandas `NaN` propagation through arithmetic
is modelled by `Option` propagation (`omap2`), and pandas' `skipna=True`
reductions (`cumprod`, `min`, `idxmin`, ...) skip `none` entries.
-/

namespace VixBacktest

/-- Elementwise binary arithmetic on possibly-`NaN` values: the result is `NaN`
(`none`) as soon as either operand is, mirroring IEEE/NumPy propagation. -/
def omap2 (f : ℚ → ℚ → ℚ) : Option ℚ → Option ℚ → Option ℚ
  | some a, some b => some (f a b)
  | _, _ => none

/-- `series.rolling(W).mean()` with the pandas default `min_periods = W`: entry
`i` is the arithmetic mean of the `W` entries ending at `i` inclusive when at
least `W` observations are available (`W ≤ i + 1`), and `NaN` otherwise. -/
def rolling_mean (W : ℕ) (l : List ℚ) : List (Option ℚ) :=
  (List.range l.length).map (fun i =>
    if W ≤ i + 1 then some (((l.take (i + 1)).drop (i + 1 - W)).sum / (W : ℚ)) else none)

/-- Column `desired_long = (df.VIX < VIX_THR) & (df.VIX < df.VIX_MA5)`.  A
comparison of a number against `NaN` is `False` in pandas, so a `none` moving
average yields `false`. -/
def desired_long (W : ℕ) (thr : ℚ) (vix : List ℚ) : List Bool :=
  List.zipWith
    (fun (v : ℚ) (m : Option ℚ) =>
      decide (v < thr) && (match m with | some mv => decide (v < mv) | none => false))
    vix (rolling_mean W vix)

/-- Column `position = desired_long.shift(1).fillna(False).astype(int)`: the
previous date's desired flag as a 0/1 integer, `0` on the first date. -/
def position (des : List Bool) : List ℕ :=
  ((false :: des).take des.length).map (fun b => if b then 1 else 0)

/-- Column `UPRO_ret = df.UPRO.pct_change().fillna(0)`: simple period return,
with the first date's `NaN` replaced by `0`. -/
def UPRO_ret : List ℚ → List ℚ
  | [] => []
  | x :: xs => 0 :: List.zipWith (fun (prev cur : ℚ) => cur / prev - 1) (x :: xs) xs

/-- Column `pos_change = df.position.diff().abs()`.  `diff()` leaves a `NaN` at
the first date and the script applies no `fillna`, so the first entry is
`none`. -/
def pos_change : List ℕ → List (Option ℚ)
  | [] => []
  | x :: xs =>
    none :: List.zipWith (fun (prev cur : ℕ) => some |(cur : ℚ) - (prev : ℚ)|) (x :: xs) xs

/-- Column `trade_cost = df.pos_change * TRADE_COST`.  `NaN * c = NaN`, even
for `c = 0`. -/
def trade_cost (c : ℚ) (pos : List ℕ) : List (Option ℚ) :=
  (pos_change pos).map (Option.map (fun d => d * c))

/-- Column `strategy_ret = df.UPRO_ret * df.position - df.trade_cost`. -/
def strategy_ret (upro : List ℚ) (pos : List ℕ) (c : ℚ) : List (Option ℚ) :=
  List.zipWith (fun (rp : ℚ) (t : Option ℚ) => Option.map (fun tv => rp - tv) t)
    (List.zipWith (fun (r : ℚ) (p : ℕ) => r * (p : ℚ)) (UPRO_ret upro) pos)
    (trade_cost c pos)

/-- Running product accumulator for `(1 + r).cumprod()` with pandas'
`skipna=True`: a `none` entry stays `none` in the output and is skipped by the
running product. -/
def cumprod1pAux (acc : ℚ) : List (Option ℚ) → List (Option ℚ)
  | [] => []
  | none :: xs => none :: cumprod1pAux acc xs
  | some r :: xs => some (acc * (1 + r)) :: cumprod1pAux (acc * (1 + r)) xs

/-- `(1 + r).cumprod()` over a possibly-`NaN` return column. -/
def cumprod1p (l : List (Option ℚ)) : List (Option ℚ) :=
  cumprod1pAux 1 l

/-- Column `NAV_UPRO = (1 + df.UPRO_ret).cumprod()` (the `UPRO_ret` column is
`NaN`-free thanks to its `fillna(0)`). -/
def NAV_UPRO (upro : List ℚ) : List (Option ℚ) :=
  cumprod1p ((UPRO_ret upro).map some)

/-- Column `NAV_strategy = (1 + df.strategy_ret).cumprod()`. -/
def NAV_strategy (upro : List ℚ) (pos : List ℕ) (c : ℚ) : List (Option ℚ) :=
  cumprod1p (strategy_ret upro pos c)

/-- Function `annualized_return_from_nav(nav, periods_per_year)`.  The real
power `x ** (1/years)` is abstracted by the parameter `rpow` (the claims
settled here do not depend on its value).  `len(nav.dropna())` is
`(nav.filterMap id).length`; `nav.iloc[0]` and `nav.iloc[-1]` are the raw
first/last entries, which may themselves be `NaN`. -/
def annualized_return_from_nav (rpow : ℚ → ℚ → ℚ) (nav : List (Option ℚ)) (ppy : ℚ) :
    Option ℚ :=
  let total_days : ℕ := (nav.filterMap id).length
  if total_days < 2 then none
  else
    let total_return : Option ℚ :=
      omap2 (fun lv fv => lv / fv - 1) nav.getLast?.join nav.head?.join
    let years : ℚ := (total_days : ℚ) / ppy
    if years ≤ 0 then none
    else total_return.map (fun tr => rpow (1 + tr) (1 / years) - 1)

/-- Expression `sharpe_strat = (ann_ret - RISK_FREE) / ann_vol if ann_vol != 0
else np.nan`, as a function of the two precomputed metrics.  A `NaN` annualized
volatility compares unequal to `0` in Python and therefore takes the division
branch, which again yields `NaN`. -/
def sharpe_strat (ann_ret : Option ℚ) (rf : ℚ) (ann_vol : Option ℚ) : Option ℚ :=
  if ann_vol = some 0 then none
  else omap2 (fun r v => (r - rf) / v) ann_ret ann_vol

/-- Accumulator for `nav.cummax()`: each output entry is the maximum of the
accumulator and the entries seen so far. -/
def cummaxAux (acc : ℚ) : List ℚ → List ℚ
  | [] => []
  | x :: xs => max acc x :: cummaxAux (max acc x) xs

/-- `nav.cummax()`: the running high-water mark of the series. -/
def cummax : List ℚ → List ℚ
  | [] => []
  | x :: xs => x :: cummaxAux x xs

/-- `series.idxmin()`: the first position attaining the minimum value
(pandas returns the first occurrence); `none` on the empty series (pandas
raises there). -/
def idxmin (l : List ℚ) : Option ℕ :=
  l.min?.bind (fun m => List.findIdx? (fun x => x == m) l)

/-- `series.idxmax()`: the first position attaining the maximum value. -/
def idxmax (l : List ℚ) : Option ℕ :=
  l.max?.bind (fun m => List.findIdx? (fun x => x == m) l)

/-- Series `dd = (nav - hwm) / hwm` inside `max_drawdown`, with
`hwm = nav.cummax()`. -/
def dd_col (nav : List ℚ) : List ℚ :=
  List.zipWith (fun (n h : ℚ) => (n - h) / h) nav (cummax nav)

/-- Function `max_drawdown(nav)`: `mdd = dd.min()`, `end = dd.idxmin()` (the
first position attaining the minimum), `start = nav[:end].idxmax()` (the first
position attaining the maximum of the slice; the label slice `nav[:end]` is
inclusive of `end`, hence `take (e + 1)`).  Returns `(mdd, start, end)`;
`none` models the `ValueError` pandas raises on an empty series. -/
def max_drawdown (nav : List ℚ) : Option (ℚ × ℕ × ℕ) :=
  match (dd_col nav).min?, idxmin (dd_col nav) with
  | some mdd, some e => (idxmax (nav.take (e + 1))).map (fun s => (mdd, s, e))
  | _, _ => none

/-- High-water mark written as the claims state it: the maximum of
`nav[0..i]`, expressed as a `max`-fold over the nonempty prefix. -/
def hwmAt (l : List ℚ) (i : ℕ) : ℚ :=
  match l with
  | [] => 0
  | x :: xs => (xs.take i).foldl max x

/-- Drawdown at position `i` as the claims state it:
`(NAV[i] - hwm[i]) / hwm[i]`. -/
def ddAt (l : List ℚ) (i : ℕ) : ℚ :=
  (l.getD i 0 - hwmAt l i) / hwmAt l i

/-! ### Length lemmas: every derived column has the length of the aligned index -/

@[simp]
theorem rolling_mean_length (W : ℕ) (l : List ℚ) : (rolling_mean W l).length = l.length := by
  simp [rolling_mean]

@[simp]
theorem desired_long_length (W : ℕ) (thr : ℚ) (vix : List ℚ) :
    (desired_long W thr vix).length = vix.length := by
  simp [desired_long]

@[simp]
theorem position_length (des : List Bool) : (position des).length = des.length := by
  simp [position]

@[simp]
theorem UPRO_ret_length (upro : List ℚ) : (UPRO_ret upro).length = upro.length := by
  cases upro with
  | nil => rfl
  | cons x xs =>
    simp only [UPRO_ret, List.length_cons, List.length_zipWith]
    omega

@[simp]
theorem pos_change_length (pos : List ℕ) : (pos_change pos).length = pos.length := by
  cases pos with
  | nil => rfl
  | cons x xs =>
    simp only [pos_change, List.length_cons, List.length_zipWith]
    omega

@[simp]
theorem trade_cost_length (c : ℚ) (pos : List ℕ) : (trade_cost c pos).length = pos.length := by
  simp [trade_cost]

@[simp]
theorem cumprod1pAux_length (acc : ℚ) (l : List (Option ℚ)) :
    (cumprod1pAux acc l).length = l.length := by
  induction l generalizing acc with
  | nil => rfl
  | cons x xs ih => cases x <;> simp [cumprod1pAux, ih]

@[simp]
theorem cumprod1p_length (l : List (Option ℚ)) : (cumprod1p l).length = l.length := by
  simp [cumprod1p]

@[simp]
theorem strategy_ret_length (upro : List ℚ) (pos : List ℕ) (c : ℚ)
    (h : pos.length = upro.length) : (strategy_ret upro pos c).length = upro.length := by
  simp [strategy_ret, h]

@[simp]
theorem NAV_UPRO_length (upro : List ℚ) : (NAV_UPRO upro).length = upro.length := by
  simp [NAV_UPRO]

@[simp]
theorem NAV_strategy_length (upro : List ℚ) (pos : List ℕ) (c : ℚ)
    (h : pos.length = upro.length) : (NAV_strategy upro pos c).length = upro.length := by
  simp [NAV_strategy, h]

/-! ### Claim C1: the one-period position lag -/

/-- Claim C1: `position[t]` is `desiredExposure[t-1]` (as a 0/1 indicator) for
every `t` after the first date, and `position[first] = 0`; in particular
`position[t]` is a function of the previous date's desired exposure only,
never of the same-date flag. -/
theorem position_lag (des : List Bool) (i : ℕ) (hi : i < des.length) :
    (position des).getD i 2 =
      if i = 0 then 0 else if des.getD (i - 1) false then 1 else 0 := by
  have hlen : i < (position des).length := by simpa using hi
  rw [List.getD_eq_getElem _ _ hlen]
  unfold position
  rw [List.getElem_map, List.getElem_take]
  cases i with
  | zero => simp
  | succ j =>
    have hj : j < des.length := lt_of_le_of_lt (Nat.le_succ j) hi
    rw [List.getElem_cons_succ, if_neg (Nat.succ_ne_zero j)]
    have hidx : j + 1 - 1 = j := rfl
    rw [hidx, List.getD_eq_getElem _ _ hj]

/-- Witness for C1 at a concrete input: `position [true, false]` has `1` at the
second date, the lag of the first date's `true`. -/
theorem position_lag_witness : (position [true, false]).getD 1 2 = 1 := by
  have h := position_lag [true, false] 1 (by decide)
  simpa using h

/-! ### Claim C3: first-row NaN in the trade-cost chain (code bug) -/

/-- Claim C3 (code bug): the script's `pos_change = position.diff().abs()` has
no `fillna`, so at the first date `positionChanged`, `tradeCost` and hence
`strategyReturn` are `NaN` (`none`) instead of the `0` the claim (and the
script's own intent) states; rows after the first follow the claimed
formulas. -/
theorem first_row_cost_nan_bug :
    pos_change [0, 1] = [none, some 1] ∧
    trade_cost 0 [0, 1] = [none, some 0] ∧
    strategy_ret [10, 11] [0, 1] 0 = [none, some (1 / 10)] ∧
    UPRO_ret [10, 11] = [0, 1 / 10] := by
  refine ⟨by norm_num [pos_change], by norm_num [trade_cost, pos_change], ?_, ?_⟩
  · norm_num [strategy_ret, trade_cost, pos_change, UPRO_ret]
  · norm_num [UPRO_ret]

/-! ### Claim C4: NAV recurrence (code bug for the strategy NAV) -/

/-- Claim C4 (code bug): `NAV_UPRO` starts at `1.0` and compounds as claimed,
but `NAV_strategy` inherits the first-row `NaN` of `strategy_ret`, so its
first entry is `NaN` rather than the claimed (and comment-documented) `1.0`;
later entries compound the running product over the valid entries. -/
theorem nav_strategy_first_nan_bug :
    NAV_UPRO [10, 11] = [some 1, some (11 / 10)] ∧
    NAV_strategy [10, 11] [0, 1] 0 = [none, some (11 / 10)] := by
  constructor
  · norm_num [NAV_UPRO, cumprod1p, cumprod1pAux, UPRO_ret]
  · norm_num [NAV_strategy, cumprod1p, cumprod1pAux, strategy_ret, trade_cost, pos_change,
      UPRO_ret]

/-! ### Claim C6: no-cost idempotence (code bug at the first row) -/

/-- Claim C6 (code bug): with `tradeCostRate = 0` the identity
`strategyReturn[t] = assetReturn[t] * position[t]` holds at every date after
the first, but at the first date the script produces `NaN` (`none`) instead of
`assetReturn[0] * position[0] = 0`, because the cost term is `NaN * 0 = NaN`
there. -/
theorem zero_cost_first_row_bug :
    strategy_ret [10, 11] [0, 0] 0 = [none, some 0] ∧
    (UPRO_ret [10, 11]).getD 0 1 * ((0 : ℕ) : ℚ) = 0 ∧
    strategy_ret [10, 11] [0, 0] 0 ≠ [some 0, some 0] := by
  have h : strategy_ret [10, 11] [0, 0] 0 = [none, some 0] := by
    norm_num [strategy_ret, trade_cost, pos_change, UPRO_ret]
  refine ⟨h, by norm_num [UPRO_ret], ?_⟩
  rw [h]
  simp

/-! ### Claim C8: Sharpe ratio guard -/

/-- Claim C8: the Sharpe expression is explicitly undefined (`NaN`) when the
annualized volatility is exactly `0`, and otherwise equals
`(annualizedReturn - riskFreeRate) / annualizedVolatility`. -/
theorem sharpe_strat_spec (r rf v : ℚ) :
    sharpe_strat (some r) rf (some 0) = none ∧
    (v ≠ 0 → sharpe_strat (some r) rf (some v) = some ((r - rf) / v)) := by
  constructor
  · simp [sharpe_strat]
  · intro hv
    simp [sharpe_strat, omap2, hv]

/-- Witness for C8 at concrete metrics. -/
theorem sharpe_strat_spec_witness : sharpe_strat (some 1) 0 (some 2) = some ((1 - 0) / 2) :=
  (sharpe_strat_spec 1 0 2).2 (by norm_num)

/-! ### Claim C5: trailing moving average and the desired-exposure rule -/

/-- Claim C5: whenever at least `W` observations end at date `i` the moving
average is the arithmetic mean of the trailing `W` VIX values ending at `i`
inclusive, and `desiredExposure[i]` holds iff `VIX[i] < τ` and
`VIX[i] < movingAverage[i]`; with fewer than `W` observations the moving
average is undefined and `desiredExposure[i] = false`. -/
theorem desired_long_spec (W : ℕ) (thr : ℚ) (vix : List ℚ) (i : ℕ) (hi : i < vix.length) :
    (W ≤ i + 1 →
      ((vix.take (i + 1)).drop (i + 1 - W)).length = W ∧
      (rolling_mean W vix).getD i none =
        some (((vix.take (i + 1)).drop (i + 1 - W)).sum / (W : ℚ)) ∧
      ((desired_long W thr vix).getD i false = true ↔
        vix.getD i 0 < thr ∧
        vix.getD i 0 < ((vix.take (i + 1)).drop (i + 1 - W)).sum / (W : ℚ))) ∧
    (i + 1 < W → (desired_long W thr vix).getD i false = false) := by
  have hirm : i < (rolling_mean W vix).length := by simpa using hi
  have hid : i < (desired_long W thr vix).length := by simpa using hi
  have hrm : (rolling_mean W vix).getD i none =
      if W ≤ i + 1 then some (((vix.take (i + 1)).drop (i + 1 - W)).sum / (W : ℚ))
      else none := by
    rw [List.getD_eq_getElem _ _ hirm]
    unfold rolling_mean
    rw [List.getElem_map, List.getElem_range]
  have hdl : (desired_long W thr vix).getD i false =
      (decide (vix.getD i 0 < thr) &&
        (match (rolling_mean W vix).getD i none with
          | some mv => decide (vix.getD i 0 < mv)
          | none => false)) := by
    rw [List.getD_eq_getElem _ _ hid, List.getD_eq_getElem _ _ hirm,
      List.getD_eq_getElem _ _ hi]
    unfold desired_long
    rw [List.getElem_zipWith]
  constructor
  · intro hW
    refine ⟨?_, ?_, ?_⟩
    · rw [List.length_drop, List.length_take]
      omega
    · rw [hrm, if_pos hW]
    · rw [hdl, hrm, if_pos hW]
      simp
  · intro hW
    rw [hdl, hrm, if_neg (by omega : ¬ W ≤ i + 1)]
    simp

/-- Witness for C5: with `W = 1`, `τ = 15` and a single VIX value `10`, the
moving average equals the value itself, so `10 < 10` fails and the desired
flag is `false`. -/
theorem desired_long_spec_witness : (desired_long 1 15 [10]).getD 0 false = false := by
  have h := ((desired_long_spec 1 15 [10] 0 (by norm_num)).1 (le_refl 1)).2.2
  rcases hb : (desired_long 1 15 [10]).getD 0 false with _ | _
  · rfl
  · rw [hb] at h
    have h2 := h.mp rfl
    norm_num at h2

/-! ### Claim C9: no input-size validation exists (corrected) -/

/-- Counterexample to claim C9: with `MA_WINDOW = 5` and only 3 aligned rows
(fewer than `MA_WINDOW + 2 = 7`) the pipeline does not fail: it computes the
signal, position and NAV columns and even the drawdown and annualized-return
metrics on the short series. -/
theorem pipeline_short_input_computes :
    desired_long 5 15 [20, 20, 20] = [false, false, false] ∧
    position (desired_long 5 15 [20, 20, 20]) = [0, 0, 0] ∧
    NAV_UPRO [10, 11, 12] = [some 1, some (11 / 10), some (6 / 5)] ∧
    NAV_strategy [10, 11, 12] (position (desired_long 5 15 [20, 20, 20])) 0 =
      [none, some 1, some 1] ∧
    max_drawdown [1, 11 / 10, 6 / 5] = some (0, 0, 0) ∧
    annualized_return_from_nav (fun a _ => a) (NAV_UPRO [10, 11, 12]) 252 = some (1 / 5) := by
  have hdes : desired_long 5 15 [20, 20, 20] = [false, false, false] := by
    norm_num [desired_long, rolling_mean, List.range_succ]
  have hpos : position (desired_long 5 15 [20, 20, 20]) = [0, 0, 0] := by
    rw [hdes]
    rfl
  have hnavU : NAV_UPRO [10, 11, 12] = [some 1, some (11 / 10), some (6 / 5)] := by
    norm_num [NAV_UPRO, cumprod1p, cumprod1pAux, UPRO_ret]
  have hnavS : NAV_strategy [10, 11, 12] (position (desired_long 5 15 [20, 20, 20])) 0 =
      [none, some 1, some 1] := by
    rw [hpos]
    norm_num [NAV_strategy, cumprod1p, cumprod1pAux, strategy_ret, trade_cost, pos_change,
      UPRO_ret]
  have hmdd : max_drawdown [1, 11 / 10, 6 / 5] = some (0, 0, 0) := by
    have hc : cummax [1, 11 / 10, 6 / 5] = [1, 11 / 10, 6 / 5] := by
      norm_num [cummax, cummaxAux, max_def]
    have hdd : dd_col [1, 11 / 10, 6 / 5] = [0, 0, 0] := by
      rw [dd_col, hc]
      norm_num
    have hmin : ([0, 0, 0] : List ℚ).min? = some 0 := by simp [List.min?]
    have hidx : idxmin [(0 : ℚ), 0, 0] = some 0 := by
      rw [idxmin, hmin]
      norm_num [List.findIdx?_cons]
    have hidxmax : idxmax [(1 : ℚ)] = some 0 := by
      norm_num [idxmax, List.max?, List.findIdx?_cons]
    rw [max_drawdown, hdd, hmin, hidx]
    simp [hidxmax]
  have hann : annualized_return_from_nav (fun a _ => a) (NAV_UPRO [10, 11, 12]) 252 =
      some (1 / 5) := by
    rw [hnavU]
    norm_num [annualized_return_from_nav, omap2, List.filterMap_cons]
  exact ⟨hdes, hpos, hnavU, hnavS, hmdd, hann⟩

/-- Claim C9, amended: the script performs no explicit validation of the
aligned series at all — every derived column is computed totally, with the
same length as the input, for aligned inputs of any size (including sizes
below `MA_WINDOW + 2` and the empty series). -/
theorem pipeline_no_validation (W : ℕ) (thr c : ℚ) (vix upro : List ℚ)
    (hlen : vix.length = upro.length) :
    (desired_long W thr vix).length = vix.length ∧
    (position (desired_long W thr vix)).length = vix.length ∧
    (UPRO_ret upro).length = upro.length ∧
    (strategy_ret upro (position (desired_long W thr vix)) c).length = upro.length ∧
    (NAV_UPRO upro).length = upro.length ∧
    (NAV_strategy upro (position (desired_long W thr vix)) c).length = upro.length := by
  have hp : (position (desired_long W thr vix)).length = upro.length := by simp [hlen]
  exact ⟨by simp, by simp, by simp, strategy_ret_length _ _ _ hp, by simp,
    NAV_strategy_length _ _ _ hp⟩

/-- Witness for the amended C9 on a 2-row aligned input (shorter than
`MA_WINDOW + 2`). -/
theorem pipeline_no_validation_witness :
    (desired_long 5 15 [20, 20]).length = ([20, 20] : List ℚ).length ∧
    (position (desired_long 5 15 [20, 20])).length = ([20, 20] : List ℚ).length ∧
    (UPRO_ret [10, 11]).length = ([10, 11] : List ℚ).length ∧
    (strategy_ret [10, 11] (position (desired_long 5 15 [20, 20])) 0).length =
      ([10, 11] : List ℚ).length ∧
    (NAV_UPRO [10, 11]).length = ([10, 11] : List ℚ).length ∧
    (NAV_strategy [10, 11] (position (desired_long 5 15 [20, 20])) 0).length =
      ([10, 11] : List ℚ).length :=
  pipeline_no_validation 5 15 0 [20, 20] [10, 11] rfl

/-! ### Claim C10: the buy-and-hold NAV telescopes to a price ratio -/

/-- The running product of the consecutive-ratio returns telescopes: starting
from accumulator `acc` at previous price `prev`, the product at each later
element `z` is `acc * z / prev`. -/
theorem cumprod1pAux_ratio (xs : List ℚ) : ∀ (prev acc : ℚ), (∀ x ∈ prev :: xs, x ≠ 0) →
    cumprod1pAux acc ((List.zipWith (fun (p q : ℚ) => q / p - 1) (prev :: xs) xs).map some) =
      xs.map (fun z => some (acc * z / prev)) := by
  induction xs with
  | nil =>
    intro prev acc h
    rfl
  | cons y ys ih =>
    intro prev acc h
    have hprev : prev ≠ 0 := h prev (List.mem_cons_self _ _)
    have hy : y ≠ 0 := h y (List.mem_cons_of_mem _ (List.mem_cons_self _ _))
    rw [List.zipWith_cons_cons, List.map_cons]
    show some (acc * (1 + (y / prev - 1))) ::
        cumprod1pAux (acc * (1 + (y / prev - 1)))
          ((List.zipWith (fun (p q : ℚ) => q / p - 1) (y :: ys) ys).map some) = _
    have e1 : 1 + (y / prev - 1) = y / prev := by ring
    rw [e1, ih y (acc * (y / prev)) (fun x hx => h x (List.mem_cons_of_mem _ hx)),
      List.map_cons]
    refine congrArg₂ _ ?_ ?_
    · rw [mul_div_assoc]
    · apply List.map_congr_left
      intro a ha
      refine congrArg _ ?_
      field_simp
      ring

/-- Claim C10: over strictly positive prices, `NAV_UPRO[t] = price[t] /
price[first]` — the `pct_change`-then-`cumprod` construction is exactly
normalization by the first price. -/
theorem NAV_UPRO_telescopes (p : List ℚ) (hpos : ∀ x ∈ p, 0 < x) (i : ℕ)
    (hi : i < p.length) :
    (NAV_UPRO p).getD i none = some (p.getD i 0 / p.getD 0 0) := by
  cases p with
  | nil => simp at hi
  | cons x xs =>
    have hx : x ≠ 0 := ne_of_gt (hpos x (List.mem_cons_self _ _))
    have hne : ∀ z ∈ x :: xs, z ≠ 0 := fun z hz => ne_of_gt (hpos z hz)
    unfold NAV_UPRO cumprod1p UPRO_ret
    rw [List.map_cons]
    show (some ((1 : ℚ) * (1 + 0)) ::
        cumprod1pAux ((1 : ℚ) * (1 + 0))
          ((List.zipWith (fun (p q : ℚ) => q / p - 1) (x :: xs) xs).map some)).getD i none = _
    have e1 : (1 : ℚ) * (1 + 0) = 1 := by norm_num
    rw [e1, cumprod1pAux_ratio xs x 1 hne]
    cases i with
    | zero => simp [div_self hx]
    | succ j =>
      have hj : j < xs.length := by simpa using hi
      have hjm : j < (xs.map (fun z => some ((1 : ℚ) * z / x))).length := by simpa using hj
      rw [List.getD_cons_succ, List.getD_cons_succ, List.getD_cons_zero,
        List.getD_eq_getElem _ _ hjm, List.getElem_map, List.getD_eq_getElem _ _ hj, one_mul]

/-- Witness for C10 at the price series `[2, 4]`. -/
theorem NAV_UPRO_telescopes_witness :
    (NAV_UPRO [2, 4]).getD 1 none =
      some (([2, 4] : List ℚ).getD 1 0 / ([2, 4] : List ℚ).getD 0 0) :=
  NAV_UPRO_telescopes [2, 4] (by norm_num [List.forall_mem_cons]) 1 (by norm_num)

/-! ### Claim C7: annualized return (corrected) -/

/-- Counterexample to claim C7: the strategy NAV series starts with a `NaN`
entry; on `[NaN, 1, 2]` there are `2 ≥ 2` valid observations and the holding
period is positive, yet the function returns `NaN`, because
`nav.iloc[0]` is the raw (NaN) first entry — so "NaN exactly when fewer than 2
valid observations or years ≤ 0" is false. -/
theorem annualized_return_nan_counterexample :
    annualized_return_from_nav (fun a _ => a) [none, some 1, some 2] 252 = none ∧
    2 ≤ (([none, some 1, some 2] : List (Option ℚ)).filterMap id).length ∧
    (0 : ℚ) < ((([none, some 1, some 2] : List (Option ℚ)).filterMap id).length : ℚ) / 252 := by
  refine ⟨?_, by simp, by norm_num [List.filterMap_cons]⟩
  norm_num [annualized_return_from_nav, omap2, List.filterMap_cons]

/-- Claim C7, amended: the function yields `NaN` when there are fewer than 2
valid observations, when the computed holding period is `≤ 0`, or additionally
when the raw first or last entry of the series is itself `NaN` (the quotient
uses `iloc[0]`/`iloc[-1]`, not the first/last valid values); when the first
and last entries are valid, there are at least 2 valid observations and the
period is positive, it returns
`(NAV[last]/NAV[first]) ** (1/years) - 1` with
`years = validObservationCount / periodsPerYear`. -/
theorem annualized_return_spec (rpow : ℚ → ℚ → ℚ) (nav : List (Option ℚ)) (ppy : ℚ) :
    ((nav.filterMap id).length < 2 → annualized_return_from_nav rpow nav ppy = none) ∧
    (((nav.filterMap id).length : ℚ) / ppy ≤ 0 →
      annualized_return_from_nav rpow nav ppy = none) ∧
    (nav.head?.join = none → annualized_return_from_nav rpow nav ppy = none) ∧
    (nav.getLast?.join = none → annualized_return_from_nav rpow nav ppy = none) ∧
    (∀ a b, nav.head?.join = some a → nav.getLast?.join = some b →
      2 ≤ (nav.filterMap id).length → 0 < ((nav.filterMap id).length : ℚ) / ppy →
      annualized_return_from_nav rpow nav ppy =
        some (rpow (b / a) (1 / (((nav.filterMap id).length : ℚ) / ppy)) - 1)) := by
  simp only [annualized_return_from_nav]
  refine ⟨?_, ?_, ?_, ?_, ?_⟩
  · intro h
    rw [if_pos h]
  · intro h
    by_cases h2 : (nav.filterMap id).length < 2
    · rw [if_pos h2]
    · rw [if_neg h2, if_pos h]
  · intro h
    by_cases h2 : (nav.filterMap id).length < 2
    · rw [if_pos h2]
    · rw [if_neg h2]
      by_cases h3 : ((nav.filterMap id).length : ℚ) / ppy ≤ 0
      · rw [if_pos h3]
      · rw [if_neg h3, h]
        cases nav.getLast?.join <;> rfl
  · intro h
    by_cases h2 : (nav.filterMap id).length < 2
    · rw [if_pos h2]
    · rw [if_neg h2]
      by_cases h3 : ((nav.filterMap id).length : ℚ) / ppy ≤ 0
      · rw [if_pos h3]
      · rw [if_neg h3, h]
        rfl
  · intro a b ha hb h2 h4
    rw [if_neg (by omega : ¬ (nav.filterMap id).length < 2), if_neg (not_le.mpr h4), ha, hb]
    show Option.map _ (some (b / a - 1)) = _
    rw [Option.map_some']
    have e1 : 1 + (b / a - 1) = b / a := by ring
    rw [e1]

/-- Witness for the amended C7 on the all-valid series `[1, 2]`. -/
theorem annualized_return_spec_witness :
    annualized_return_from_nav (fun a b => a * b) [some 1, some 2] 252 =
      some (2 / 1 * (1 / ((2 : ℚ) / 252)) - 1) := by
  have h := (annualized_return_spec (fun a b => a * b) [some 1, some 2] 252).2.2.2.2 1 2
    (by rfl) (by simp) (by simp) (by norm_num [List.filterMap_cons])
  rw [h]
  norm_num [List.filterMap_cons]

/-! ### Claim C2: maximum drawdown (corrected tie-break for the peak date) -/

theorem cummaxAux_length (acc : ℚ) (l : List ℚ) : (cummaxAux acc l).length = l.length := by
  induction l generalizing acc with
  | nil => rfl
  | cons x xs ih => simp [cummaxAux, ih]

@[simp]
theorem cummax_length (l : List ℚ) : (cummax l).length = l.length := by
  cases l <;> simp [cummax, cummaxAux_length]

@[simp]
theorem dd_col_length (nav : List ℚ) : (dd_col nav).length = nav.length := by
  simp [dd_col]

theorem le_foldl_max (l : List ℚ) (acc : ℚ) : acc ≤ l.foldl max acc := by
  induction l generalizing acc with
  | nil => exact le_refl acc
  | cons x xs ih =>
    rw [List.foldl_cons]
    exact le_trans (le_max_left acc x) (ih (max acc x))

theorem mem_le_foldl_max (l : List ℚ) : ∀ (acc x : ℚ), x ∈ l → x ≤ l.foldl max acc := by
  induction l with
  | nil =>
    intro acc x hx
    simp at hx
  | cons y ys ih =>
    intro acc x hx
    rw [List.foldl_cons]
    rcases List.mem_cons.mp hx with h | h
    · subst h
      exact le_trans (le_max_right acc x) (le_foldl_max ys (max acc x))
    · exact ih (max acc y) x h

theorem foldl_max_choice (l : List ℚ) :
    ∀ acc : ℚ, l.foldl max acc = acc ∨ l.foldl max acc ∈ l := by
  induction l with
  | nil =>
    intro acc
    left
    rfl
  | cons y ys ih =>
    intro acc
    rw [List.foldl_cons]
    rcases ih (max acc y) with h | h
    · rw [h]
      rcases max_choice acc y with h2 | h2
      · left
        exact h2
      · right
        rw [h2]
        exact List.mem_cons_self _ _
    · right
      exact List.mem_cons_of_mem _ h

/-- The high-water mark at `i` is attained somewhere in `nav[0..i]`. -/
theorem hwmAt_mem (l : List ℚ) (i : ℕ) (hi : i < l.length) : hwmAt l i ∈ l.take (i + 1) := by
  cases l with
  | nil => simp at hi
  | cons x xs =>
    rw [List.take_succ_cons]
    show (xs.take i).foldl max x ∈ x :: xs.take i
    rcases foldl_max_choice (xs.take i) x with h | h
    · rw [h]
      exact List.mem_cons_self _ _
    · exact List.mem_cons_of_mem _ h

/-- The high-water mark at `i` bounds every value of `nav[0..i]`: together
with `hwmAt_mem` it is exactly `max(NAV[0..i])` as the claim states. -/
theorem hwmAt_ub (l : List ℚ) (i : ℕ) (x : ℚ) (hx : x ∈ l.take (i + 1)) : x ≤ hwmAt l i := by
  cases l with
  | nil => simp at hx
  | cons y ys =>
    rw [List.take_succ_cons] at hx
    show x ≤ (ys.take i).foldl max y
    rcases List.mem_cons.mp hx with h | h
    · subst h
      exact le_foldl_max _ _
    · exact mem_le_foldl_max _ _ _ h

theorem cummaxAux_getD (l : List ℚ) : ∀ (acc : ℚ) (i : ℕ), i < l.length →
    (cummaxAux acc l).getD i 0 = (l.take (i + 1)).foldl max acc := by
  induction l with
  | nil =>
    intro acc i hi
    simp at hi
  | cons x xs ih =>
    intro acc i hi
    cases i with
    | zero => simp [cummaxAux]
    | succ j =>
      have hj : j < xs.length := by simpa using hi
      simp only [cummaxAux, List.getD_cons_succ, List.take_succ_cons, List.foldl_cons]
      exact ih (max acc x) j hj

/-- The computed `cummax` column agrees with the claim-level high-water mark. -/
theorem cummax_getD (l : List ℚ) (i : ℕ) (hi : i < l.length) :
    (cummax l).getD i 0 = hwmAt l i := by
  cases l with
  | nil => simp at hi
  | cons x xs =>
    cases i with
    | zero => simp [cummax, hwmAt]
    | succ j =>
      have hj : j < xs.length := by simpa using hi
      show (x :: cummaxAux x xs).getD (j + 1) 0 = (xs.take (j + 1)).foldl max x
      rw [List.getD_cons_succ]
      exact cummaxAux_getD xs x j hj

/-- The computed `dd` column agrees with the claim-level drawdown formula. -/
theorem dd_col_getD (nav : List ℚ) (i : ℕ) (hi : i < nav.length) :
    (dd_col nav).getD i 0 = ddAt nav i := by
  have hiz : i < (dd_col nav).length := by simpa using hi
  have hic : i < (cummax nav).length := by simpa using hi
  rw [List.getD_eq_getElem _ _ hiz]
  unfold dd_col
  rw [List.getElem_zipWith]
  unfold ddAt
  rw [List.getD_eq_getElem nav 0 hi, ← cummax_getD nav i hi, List.getD_eq_getElem _ _ hic]

theorem min?_spec (l : List ℚ) (m : ℚ) (h : l.min? = some m) : m ∈ l ∧ ∀ b ∈ l, m ≤ b := by
  haveI : Std.Antisymm ((· ≤ ·) : ℚ → ℚ → Prop) := ⟨fun h1 h2 => le_antisymm h1 h2⟩
  rw [List.min?_eq_some_iff (fun a => le_refl a) (fun a b => min_choice a b)
    (fun a b c => le_min_iff)] at h
  exact h

theorem max?_spec (l : List ℚ) (m : ℚ) (h : l.max? = some m) : m ∈ l ∧ ∀ b ∈ l, b ≤ m := by
  haveI : Std.Antisymm ((· ≤ ·) : ℚ → ℚ → Prop) := ⟨fun h1 h2 => le_antisymm h1 h2⟩
  rw [List.max?_eq_some_iff (fun a => le_refl a) (fun a b => max_choice a b)
    (fun a b c => max_le_iff)] at h
  exact h

/-- `idxmin` returns an in-range position whose value is the series minimum,
and no strictly earlier position attains that value (pandas' first-occurrence
rule). -/
theorem idxmin_spec (l : List ℚ) (e : ℕ) (h : idxmin l = some e) :
    e < l.length ∧ l.min? = some (l.getD e 0) ∧ ∀ j, j < e → l.getD j 0 ≠ l.getD e 0 := by
  unfold idxmin at h
  rw [Option.bind_eq_some] at h
  obtain ⟨m, hm, hfind⟩ := h
  obtain ⟨he, hpe, hprev⟩ := List.findIdx?_eq_some_iff_getElem.mp hfind
  simp only [beq_iff_eq] at hpe
  have hme : l.getD e 0 = m := by
    rw [List.getD_eq_getElem _ _ he]
    exact hpe
  refine ⟨he, ?_, ?_⟩
  · rw [hme]
    exact hm
  · intro j hj
    have hjl : j < l.length := lt_trans hj he
    have hne := hprev j hj
    simp only [beq_iff_eq] at hne
    rw [List.getD_eq_getElem _ _ hjl, hme]
    exact hne

theorem idxmin_isSome (l : List ℚ) (hne : l ≠ []) : ∃ e, idxmin l = some e := by
  obtain ⟨x, hx⟩ := List.exists_mem_of_ne_nil l hne
  obtain ⟨m, hm⟩ := Option.isSome_iff_exists.mp (List.isSome_min?_of_mem hx)
  have hmem : m ∈ l := (min?_spec l m hm).1
  refine ⟨List.findIdx (fun x => x == m) l, ?_⟩
  unfold idxmin
  rw [hm]
  exact List.findIdx?_eq_some_of_exists ⟨m, hmem, by simp⟩

/-- `idxmax` returns an in-range position whose value is the series maximum,
and no strictly earlier position attains that value. -/
theorem idxmax_spec (l : List ℚ) (s : ℕ) (h : idxmax l = some s) :
    s < l.length ∧ l.max? = some (l.getD s 0) ∧ ∀ j, j < s → l.getD j 0 ≠ l.getD s 0 := by
  unfold idxmax at h
  rw [Option.bind_eq_some] at h
  obtain ⟨m, hm, hfind⟩ := h
  obtain ⟨hs, hps, hprev⟩ := List.findIdx?_eq_some_iff_getElem.mp hfind
  simp only [beq_iff_eq] at hps
  have hms : l.getD s 0 = m := by
    rw [List.getD_eq_getElem _ _ hs]
    exact hps
  refine ⟨hs, ?_, ?_⟩
  · rw [hms]
    exact hm
  · intro j hj
    have hjl : j < l.length := lt_trans hj hs
    have hne := hprev j hj
    simp only [beq_iff_eq] at hne
    rw [List.getD_eq_getElem _ _ hjl, hms]
    exact hne

theorem idxmax_isSome (l : List ℚ) (hne : l ≠ []) : ∃ s, idxmax l = some s := by
  obtain ⟨x, hx⟩ := List.exists_mem_of_ne_nil l hne
  obtain ⟨m, hm⟩ := Option.isSome_iff_exists.mp (List.isSome_max?_of_mem hx)
  have hmem : m ∈ l := (max?_spec l m hm).1
  refine ⟨List.findIdx (fun x => x == m) l, ?_⟩
  unfold idxmax
  rw [hm]
  exact List.findIdx?_eq_some_of_exists ⟨m, hmem, by simp⟩

theorem max_drawdown_eq (nav : List ℚ) (m : ℚ) (e : ℕ)
    (h1 : (dd_col nav).min? = some m) (h2 : idxmin (dd_col nav) = some e) :
    max_drawdown nav = (idxmax (nav.take (e + 1))).map (fun s => (m, s, e)) := by
  unfold max_drawdown
  rw [h1, h2]

/-- Counterexample to claim C2's tie-break: on the NAV series `[2, 2, 1]` the
trough is at position `2` and the peak value `2` is attained at positions `0`
and `1`; the claim says the LATEST such position (`1`) is chosen as
`drawdownStart`, but the code's `idxmax` returns the FIRST (`0`). -/
theorem max_drawdown_latest_peak_counterexample :
    max_drawdown [2, 2, 1] = some (-(1 / 2 : ℚ), 0, 2) ∧
    ([2, 2, 1] : List ℚ).getD 1 0 = ([2, 2, 1] : List ℚ).getD 0 0 ∧
    (1 : ℕ) ≤ 2 ∧ (0 : ℕ) ≠ 1 := by
  have hc : cummax [2, 2, 1] = [2, 2, 2] := by
    norm_num [cummax, cummaxAux, max_def]
  have hdd : dd_col [2, 2, 1] = [0, 0, -(1 / 2)] := by
    rw [dd_col, hc]
    norm_num
  have hmin : ([0, 0, -(1 / 2 : ℚ)] : List ℚ).min? = some (-(1 / 2)) := by
    simp [List.min?]
  have hidx : idxmin [0, 0, -(1 / 2 : ℚ)] = some 2 := by
    rw [idxmin, hmin]
    norm_num [List.findIdx?_cons]
  have hidxmax : idxmax ([2, 2, 1] : List ℚ) = some 0 := by
    norm_num [idxmax, List.max?, List.findIdx?_cons, max_def]
  refine ⟨?_, by norm_num, by norm_num, by norm_num⟩
  rw [max_drawdown, hdd, hmin, hidx]
  simp [hidxmax]

/-- Claim C2, amended: `max_drawdown` returns `(mdd, s, e)` where `mdd` is the
minimum over the series of `dd[t] = (NAV[t] - hwm[t]) / hwm[t]` with
`hwm[t] = max(NAV[0..t])`, `e` is the EARLIEST position attaining that
minimum, and `s ≤ e` is the EARLIEST (not latest) position at or before `e`
attaining the maximum NAV value over `NAV[0..e]`. -/
theorem max_drawdown_spec (nav : List ℚ) (hne : nav ≠ []) :
    ∃ mdd s e, max_drawdown nav = some (mdd, s, e) ∧
      e < nav.length ∧ s ≤ e ∧
      (∀ i, i < nav.length → mdd ≤ ddAt nav i) ∧
      ddAt nav e = mdd ∧
      (∀ i, i < e → ddAt nav i ≠ mdd) ∧
      (∀ i, i ≤ e → nav.getD i 0 ≤ nav.getD s 0) ∧
      (∀ i, i < s → nav.getD i 0 ≠ nav.getD s 0) := by
  have hnavpos : 0 < nav.length := List.length_pos.mpr hne
  have hddlen : (dd_col nav).length = nav.length := dd_col_length nav
  have hddne : dd_col nav ≠ [] := by
    apply List.ne_nil_of_length_pos
    omega
  obtain ⟨e, he⟩ := idxmin_isSome (dd_col nav) hddne
  obtain ⟨heL, hmin, hfirst⟩ := idxmin_spec (dd_col nav) e he
  have hmval := min?_spec (dd_col nav) _ hmin
  have heN : e < nav.length := by omega
  have htlen : (nav.take (e + 1)).length = e + 1 := by
    rw [List.length_take]
    omega
  have htne : nav.take (e + 1) ≠ [] := by
    apply List.ne_nil_of_length_pos
    omega
  obtain ⟨s, hs⟩ := idxmax_isSome (nav.take (e + 1)) htne
  obtain ⟨hsL, hmax, hsfirst⟩ := idxmax_spec (nav.take (e + 1)) s hs
  have hmval2 := max?_spec (nav.take (e + 1)) _ hmax
  have hsLe : s ≤ e := by omega
  have htake : ∀ j, j ≤ e → (nav.take (e + 1)).getD j 0 = nav.getD j 0 := by
    intro j hj
    have hjN : j < nav.length := lt_of_le_of_lt hj heN
    have hjt : j < (nav.take (e + 1)).length := by omega
    rw [List.getD_eq_getElem _ _ hjt, List.getElem_take, List.getD_eq_getElem _ _ hjN]
  refine ⟨(dd_col nav).getD e 0, s, e, ?_, heN, hsLe, ?_, ?_, ?_, ?_, ?_⟩
  · rw [max_drawdown_eq nav _ e hmin he]
    rw [hs]
    rfl
  · intro i hi
    rw [← dd_col_getD nav i hi]
    have hiz : i < (dd_col nav).length := by omega
    rw [List.getD_eq_getElem _ _ hiz]
    exact hmval.2 _ (List.getElem_mem hiz)
  · rw [← dd_col_getD nav e heN]
  · intro i hie
    rw [← dd_col_getD nav i (lt_trans hie heN)]
    exact hfirst i hie
  · intro i hie
    have hiN : i < nav.length := lt_of_le_of_lt hie heN
    have hit : i < (nav.take (e + 1)).length := by omega
    rw [← htake i hie, ← htake s hsLe, List.getD_eq_getElem _ _ hit]
    exact hmval2.2 _ (List.getElem_mem hit)
  · intro i his
    have hie : i ≤ e := le_trans (le_of_lt his) hsLe
    rw [← htake i hie, ← htake s hsLe]
    exact hsfirst i his

/-- Witness for the amended C2 on the NAV series `[1, 2]`. -/
theorem max_drawdown_spec_witness :
    ∃ mdd s e, max_drawdown [1, 2] = some (mdd, s, e) ∧
      e < ([1, 2] : List ℚ).length ∧ s ≤ e ∧
      (∀ i, i < ([1, 2] : List ℚ).length → mdd ≤ ddAt [1, 2] i) ∧
      ddAt [1, 2] e = mdd ∧
      (∀ i, i < e → ddAt [1, 2] i ≠ mdd) ∧
      (∀ i, i ≤ e → ([1, 2] : List ℚ).getD i 0 ≤ ([1, 2] : List ℚ).getD s 0) ∧
      (∀ i, i < s → ([1, 2] : List ℚ).getD i 0 ≠ ([1, 2] : List ℚ).getD s 0) :=
  max_drawdown_spec [1, 2] (by simp)

end VixBacktest
